import Mathlib

/-!
Shallow embedding of the batch fetch-and-manifest scripts of this repository:
the cross-product driver `src/R4/fetchdat.py` and the discovery-based variant
`src/osdf_demo.py`.  Each script is modelled as a function from its external
collaborators (the remote fetch service, the file-discovery service, the
per-URL downloader) to the ordered list of observable effects it performs
(directory creation, remote calls, file writes, manifest appends, prints).
The manifest file's OS-level buffering is modelled separately to reason about
durability.
-/

/-- One row of `time.csv`: `time_ranges = pd.read_csv(..., names=["start", "end"])`
with `start_time = int(time_row["start"])`, `end_time = int(time_row["end"])`
(src/R4/fetchdat.py lines 10, 35-36; src/osdf_demo.py lines 18-19 read the same
shape via `csv.DictReader`). -/
structure TimeRow where
  start : Int
  «end» : Int
deriving Repr, DecidableEq

/-- One row of `channels.csv`: `channels = pd.read_csv(..., names=["channel",
"sampling_rate"])` with `sampling_rate = int(...)` (src/R4/fetchdat.py lines 11,
27-28).  `sampling_rate` is read by the script but never used afterwards. -/
structure ChannelRow where
  channel : String
  sampling_rate : Int
deriving Repr, DecidableEq

/-- The result of the external remote-fetch collaborator (`TimeSeries.fetch`).
The spec's interface for this collaborator is that it exposes the series' start
time and sample interval as plain numeric values; `t0` and `dt` hold the decimal
renderings that the f-string of src/R4/fetchdat.py line 59 interpolates. -/
structure Series where
  t0 : String
  dt : String
deriving Repr, DecidableEq

/-- Models Python `channel_name.replace(":", "_")` (src/R4/fetchdat.py lines 31
and 47): for the one-character pattern ":" every occurrence of the character is
replaced independently and every other character passes through. -/
def sanitize (s : String) : String :=
  String.mk (s.data.map fun c => if c = ':' then '_' else c)

/-- Models `os.path.join(a, b)` for a nonempty `a` without a trailing separator
and a relative `b`, the only shapes occurring in the source. -/
def pathJoin (a b : String) : String := a ++ "/" ++ b

/-- Models `os.path.abspath(p)` for a relative `p` and an absolute working
directory `cwd` without a trailing separator (src/R4/fetchdat.py line 59). -/
def abspath (cwd p : String) : String := pathJoin cwd p

/-- The hard-coded NDS host of src/R4/fetchdat.py line 39. -/
def host : String := "nds.gwosc.org"

/-- Source: `channel_dir = channel_name.replace(":", "_")` (src/R4/fetchdat.py line 31). -/
def channel_dir (channel_name : String) : String := sanitize channel_name

/-- Source: `time_dir_path = os.path.join(channel_dir, f"{start_time}_{end_time}")`
(src/R4/fetchdat.py line 42). -/
def time_dir_path (channel_name : String) (tr : TimeRow) : String :=
  pathJoin (channel_dir channel_name) (toString tr.start ++ "_" ++ toString tr.«end»)

/-- Source: `output_file = os.path.join(time_dir_path,
f"{channel_name.replace(':', '_')}_{start_time}_{end_time}.gwf")`
(src/R4/fetchdat.py lines 45-47). -/
def output_file (channel_name : String) (tr : TimeRow) : String :=
  pathJoin (time_dir_path channel_name tr)
    (sanitize channel_name ++ "_" ++ toString tr.start ++ "_" ++ toString tr.«end» ++ ".gwf")

/-- The string written by `fin.write(f"{os.path.abspath(output_file)} {t0} {dt} 0 0\n")`
(src/R4/fetchdat.py line 59). -/
def manifestLine (absPath t0 dt : String) : String :=
  absPath ++ " " ++ t0 ++ " " ++ dt ++ " 0 0\n"

/-- Observable effects of src/R4/fetchdat.py, in program order: `os.makedirs`,
`TimeSeries.fetch`, `data.write`, `fin.write` of a manifest line, and `print`. -/
inductive Event where
  | mkdirs (path : String)
  | fetch (channel : String) (start stop : Int) (hostName : String)
  | write (path : String)
  | manifest (line : String)
  | print (msg : String)
deriving Repr, DecidableEq

/-- The effects of the inner-loop body of src/R4/fetchdat.py (lines 35-60) for
one (channel, range) pair once the fetch has returned `data`: the fetch call is
issued first, then the time-range subdirectory is created, the series is
written, a progress line is printed, the manifest line is appended and echoed. -/
def pairEvents (cwd channel_name : String) (data : Series) (tr : TimeRow) : List Event :=
  [ Event.fetch channel_name tr.start tr.«end» host,
    Event.mkdirs (time_dir_path channel_name tr),
    Event.write (output_file channel_name tr),
    Event.print ("Aux data for channel \x27" ++ channel_name ++ "\x27 from " ++
      toString tr.start ++ " to " ++ toString tr.«end» ++ " saved to " ++
      output_file channel_name tr),
    Event.manifest (manifestLine (abspath cwd (output_file channel_name tr)) data.t0 data.dt),
    Event.print ("Added to fin.txt: " ++ abspath cwd (output_file channel_name tr) ++
      " " ++ data.t0 ++ " " ++ data.dt ++ " 0 0") ]

/-- The inner loop over time ranges (src/R4/fetchdat.py lines 34-60) for one
channel, with a total fetch collaborator `oracle`. -/
def runRanges (cwd : String) (oracle : String → Int → Int → Series)
    (channel_name : String) (ranges : List TimeRow) : List Event :=
  ranges.flatMap fun tr => pairEvents cwd channel_name (oracle channel_name tr.start tr.«end») tr

/-- The whole driver loop of src/R4/fetchdat.py (lines 26-60): for each channel
row, create the channel directory, then run the inner loop over every time
range. -/
def runDriver (cwd : String) (oracle : String → Int → Int → Series)
    (channels : List ChannelRow) (ranges : List TimeRow) : List Event :=
  channels.flatMap fun ch =>
    Event.mkdirs (channel_dir ch.channel) :: runRanges cwd oracle ch.channel ranges

/-- The manifest lines appended during a run, in order. -/
def manifestLines (evs : List Event) : List String :=
  evs.filterMap fun e => match e with
    | Event.manifest l => some l
    | _ => none

/-- The fetch calls issued during a run, in order. -/
def fetches (evs : List Event) : List (String × Int × Int) :=
  evs.filterMap fun e => match e with
    | Event.fetch c s t _ => some (c, s, t)
    | _ => none

/-- The directories passed to `os.makedirs` during a run, in order. -/
def dirsMade (evs : List Event) : List String :=
  evs.filterMap fun e => match e with
    | Event.mkdirs p => some p
    | _ => none

/-- The output files written during a run, in order. -/
def filesWritten (evs : List Event) : List String :=
  evs.filterMap fun e => match e with
    | Event.write p => some p
    | _ => none

theorem manifestLines_append (l1 l2 : List Event) :
    manifestLines (l1 ++ l2) = manifestLines l1 ++ manifestLines l2 :=
  List.filterMap_append l1 l2 _

theorem fetches_append (l1 l2 : List Event) :
    fetches (l1 ++ l2) = fetches l1 ++ fetches l2 :=
  List.filterMap_append l1 l2 _

theorem dirsMade_append (l1 l2 : List Event) :
    dirsMade (l1 ++ l2) = dirsMade l1 ++ dirsMade l2 :=
  List.filterMap_append l1 l2 _

theorem filesWritten_append (l1 l2 : List Event) :
    filesWritten (l1 ++ l2) = filesWritten l1 ++ filesWritten l2 :=
  List.filterMap_append l1 l2 _

theorem fetches_runRanges (cwd : String) (oracle : String → Int → Int → Series)
    (ch : String) (ranges : List TimeRow) :
    fetches (runRanges cwd oracle ch ranges) =
      ranges.map fun tr => (ch, tr.start, tr.«end») := by
  induction ranges with
  | nil => rfl
  | cons tr rest ih =>
    simp only [runRanges, List.flatMap_cons, List.map_cons] at *
    rw [fetches_append, ih]
    rfl

theorem fetches_runDriver (cwd : String) (oracle : String → Int → Int → Series)
    (channels : List ChannelRow) (ranges : List TimeRow) :
    fetches (runDriver cwd oracle channels ranges) =
      channels.flatMap fun ch => ranges.map fun tr => (ch.channel, tr.start, tr.«end») := by
  induction channels with
  | nil => rfl
  | cons ch rest ih =>
    simp only [runDriver, List.flatMap_cons] at *
    rw [fetches_append, ih]
    have h1 : fetches (Event.mkdirs (channel_dir ch.channel) ::
        runRanges cwd oracle ch.channel ranges) =
        fetches (runRanges cwd oracle ch.channel ranges) := rfl
    rw [h1, fetches_runRanges]

/-- C3: for C channels and R time ranges the driver performs exactly C×R fetch
attempts, one per (channel, range) pair, in row-major order: channel outer
loop, time range inner loop, in the row order of the two input tables. -/
theorem fetch_cross_product (cwd : String) (oracle : String → Int → Int → Series)
    (channels : List ChannelRow) (ranges : List TimeRow) :
    fetches (runDriver cwd oracle channels ranges) =
      (channels.flatMap fun ch => ranges.map fun tr => (ch.channel, tr.start, tr.«end»))
    ∧ (fetches (runDriver cwd oracle channels ranges)).length =
      channels.length * ranges.length := by
  refine ⟨fetches_runDriver cwd oracle channels ranges, ?_⟩
  rw [fetches_runDriver]
  induction channels with
  | nil => simp
  | cons ch rest ih =>
    simp only [List.flatMap_cons, List.length_append, List.length_map, List.length_cons, ih]
    ring

/-- C2: the output directory is `sanitize(channel)/start_end` and the output
file is `<dir>/sanitize(channel)_start_end.gwf`, where sanitization replaces
every colon of the channel identifier by an underscore and leaves every other
character unchanged (length preserved, characters mapped pointwise). -/
theorem output_paths_spec (channel_name : String) (tr : TimeRow) :
    time_dir_path channel_name tr =
      sanitize channel_name ++ "/" ++ (toString tr.start ++ "_" ++ toString tr.«end»)
    ∧ output_file channel_name tr =
      time_dir_path channel_name tr ++ "/" ++
        (sanitize channel_name ++ "_" ++ toString tr.start ++ "_" ++ toString tr.«end» ++ ".gwf")
    ∧ (sanitize channel_name).length = channel_name.length
    ∧ ∀ i : Nat, (sanitize channel_name).data[i]? =
        (channel_name.data[i]?).map fun c => if c = ':' then '_' else c := by
  refine ⟨rfl, rfl, ?_, ?_⟩
  · show (channel_name.data.map fun c => if c = ':' then '_' else c).length =
      channel_name.data.length
    exact List.length_map _ _
  · intro i
    simp [sanitize]

/-- Splits a character list on space characters, accumulating the current field
in reverse; tokenizes a manifest line the way a whitespace-delimited reader
would. -/
def splitFields : List Char → List Char → List (List Char)
  | [], acc => [acc.reverse]
  | c :: cs, acc => if c = ' ' then acc.reverse :: splitFields cs [] else splitFields cs (c :: acc)

theorem splitFields_run (w : List Char) (hw : ∀ c ∈ w, c ≠ ' ') :
    ∀ (rest acc : List Char),
      splitFields (w ++ ' ' :: rest) acc = (acc.reverse ++ w) :: splitFields rest [] := by
  induction w with
  | nil => intro rest acc; simp [splitFields]
  | cons c cs ih =>
    intro rest acc
    have hc : c ≠ ' ' := hw c (List.mem_cons_self c cs)
    have hcs : ∀ d ∈ cs, d ≠ ' ' := fun d hd => hw d (List.mem_cons_of_mem c hd)
    simp only [List.cons_append, splitFields, if_neg hc]
    rw [List.append_eq, ih hcs rest (c :: acc)]
    simp

theorem splitFields_last (w : List Char) (hw : ∀ c ∈ w, c ≠ ' ') :
    ∀ acc : List Char, splitFields w acc = [acc.reverse ++ w] := by
  induction w with
  | nil => intro acc; simp [splitFields]
  | cons c cs ih =>
    intro acc
    have hc : c ≠ ' ' := hw c (List.mem_cons_self c cs)
    have hcs : ∀ d ∈ cs, d ≠ ' ' := fun d hd => hw d (List.mem_cons_of_mem c hd)
    simp only [splitFields, if_neg hc]
    rw [ih hcs (c :: acc)]
    simp

theorem not_space_of_not_mem {s : List Char} (h : ' ' ∉ s) : ∀ c ∈ s, c ≠ ' ' := by
  intro c hc he
  exact h (he ▸ hc)

/-- C1: the line appended to the manifest for a successful pair is exactly the
absolute output path, t0, dt and two literal zeros, space-separated and
newline-terminated; whenever path, t0 and dt contain no internal space the line
body tokenizes into exactly those five fields, and for t0 = 1238166018 and
dt = 0.0625 the line is exactly `<abs_path> 1238166018 0.0625 0 0` + newline. -/
theorem manifest_line_five_fields (cwd channel_name : String) (data : Series) (tr : TimeRow)
    (hp : ' ' ∉ (abspath cwd (output_file channel_name tr)).data)
    (ht : ' ' ∉ data.t0.data) (hd : ' ' ∉ data.dt.data) :
    manifestLines (pairEvents cwd channel_name data tr) =
      [manifestLine (abspath cwd (output_file channel_name tr)) data.t0 data.dt]
    ∧ manifestLine (abspath cwd (output_file channel_name tr)) data.t0 data.dt =
      (abspath cwd (output_file channel_name tr) ++ " " ++ data.t0 ++ " " ++ data.dt ++ " 0 0")
        ++ "\n"
    ∧ (abspath cwd (output_file channel_name tr) ++ " " ++ data.t0 ++ " " ++ data.dt
        ++ " 0 0").data =
      (abspath cwd (output_file channel_name tr)).data ++ ' ' :: (data.t0.data ++ ' ' ::
        (data.dt.data ++ [' ', '0', ' ', '0']))
    ∧ splitFields ((abspath cwd (output_file channel_name tr)).data ++ ' ' :: (data.t0.data
        ++ ' ' :: (data.dt.data ++ [' ', '0', ' ', '0']))) [] =
      [(abspath cwd (output_file channel_name tr)).data, data.t0.data, data.dt.data,
        ['0'], ['0']]
    ∧ (data.t0 = "1238166018" → data.dt = "0.0625" →
        manifestLine (abspath cwd (output_file channel_name tr)) data.t0 data.dt =
          abspath cwd (output_file channel_name tr) ++ " 1238166018 0.0625 0 0\n") := by
  refine ⟨rfl, ?_, ?_, ?_, ?_⟩
  · simp [manifestLine, String.append_assoc]
  · simp [String.data_append]
  · have h1 := splitFields_run _ (not_space_of_not_mem hp)
      (data.t0.data ++ ' ' :: (data.dt.data ++ [' ', '0', ' ', '0'])) []
    rw [h1]
    have h2 := splitFields_run _ (not_space_of_not_mem ht)
      (data.dt.data ++ [' ', '0', ' ', '0']) ([] : List Char)
    rw [h2]
    have h3 : data.dt.data ++ [' ', '0', ' ', '0'] =
        data.dt.data ++ ' ' :: (['0'] ++ ' ' :: ['0']) := by simp
    rw [h3, splitFields_run _ (not_space_of_not_mem hd) (['0'] ++ ' ' :: ['0']) []]
    rw [splitFields_run ['0'] (by decide) ['0'] []]
    rw [splitFields_last ['0'] (by decide) []]
    simp
  · intro h0 h1
    rw [h0, h1]
    simp only [manifestLine, String.append_assoc]
    congr 1

/-- Concrete instance of `manifest_line_five_fields` with every hypothesis
discharged by evaluation. -/
theorem manifest_line_five_fields_witness :
    manifestLine (abspath "/data" (output_file "H1:X" ⟨0, 1⟩)) "1238166018" "0.0625" =
      abspath "/data" (output_file "H1:X" ⟨0, 1⟩) ++ " 1238166018 0.0625 0 0\n" :=
  (manifest_line_five_fields "/data" "H1:X" ⟨"1238166018", "0.0625"⟩ ⟨0, 1⟩
    (by decide) (by decide) (by decide)).2.2.2.2 rfl rfl

theorem manifestLines_runRanges (cwd : String) (oracle : String → Int → Int → Series)
    (ch : String) (ranges : List TimeRow) :
    manifestLines (runRanges cwd oracle ch ranges) =
      ranges.map fun tr => manifestLine (abspath cwd (output_file ch tr))
        (oracle ch tr.start tr.«end»).t0 (oracle ch tr.start tr.«end»).dt := by
  induction ranges with
  | nil => rfl
  | cons tr rest ih =>
    simp only [runRanges, List.flatMap_cons, List.map_cons] at *
    rw [manifestLines_append, ih]
    rfl

theorem manifestLines_runDriver (cwd : String) (oracle : String → Int → Int → Series)
    (channels : List ChannelRow) (ranges : List TimeRow) :
    manifestLines (runDriver cwd oracle channels ranges) =
      channels.flatMap fun ch => ranges.map fun tr =>
        manifestLine (abspath cwd (output_file ch.channel tr))
          (oracle ch.channel tr.start tr.«end»).t0 (oracle ch.channel tr.start tr.«end»).dt := by
  induction channels with
  | nil => rfl
  | cons ch rest ih =>
    simp only [runDriver, List.flatMap_cons] at *
    rw [manifestLines_append, ih]
    have h1 : manifestLines (Event.mkdirs (channel_dir ch.channel) ::
        runRanges cwd oracle ch.channel ranges) =
        manifestLines (runRanges cwd oracle ch.channel ranges) := rfl
    rw [h1, manifestLines_runRanges]

theorem manifestLines_runDriver_length (cwd : String) (oracle : String → Int → Int → Series)
    (channels : List ChannelRow) (ranges : List TimeRow) :
    (manifestLines (runDriver cwd oracle channels ranges)).length =
      channels.length * ranges.length := by
  rw [manifestLines_runDriver]
  induction channels with
  | nil => simp
  | cons ch rest ih =>
    simp only [List.flatMap_cons, List.length_append, List.length_map, List.length_cons, ih]
    ring

/-- C4: running the driver twice with the same inputs creates the same set of
directories and writes the same set of output files as one run (the second run
overwrites; `os.makedirs(..., exist_ok=True)` raises no error on an existing
directory), while the manifest receives the first run's lines again verbatim:
it grows by exactly one line per (channel, range) pair each run, never
deduplicated. -/
theorem rerun_idempotent (cwd : String) (oracle : String → Int → Int → Series)
    (channels : List ChannelRow) (ranges : List TimeRow) :
    (∀ p, p ∈ dirsMade (runDriver cwd oracle channels ranges ++
        runDriver cwd oracle channels ranges) ↔
        p ∈ dirsMade (runDriver cwd oracle channels ranges))
    ∧ (∀ p, p ∈ filesWritten (runDriver cwd oracle channels ranges ++
        runDriver cwd oracle channels ranges) ↔
        p ∈ filesWritten (runDriver cwd oracle channels ranges))
    ∧ manifestLines (runDriver cwd oracle channels ranges ++
        runDriver cwd oracle channels ranges) =
      manifestLines (runDriver cwd oracle channels ranges) ++
        manifestLines (runDriver cwd oracle channels ranges)
    ∧ (manifestLines (runDriver cwd oracle channels ranges)).length =
      channels.length * ranges.length := by
  refine ⟨?_, ?_, manifestLines_append _ _, manifestLines_runDriver_length _ _ _ _⟩
  · intro p
    rw [dirsMade_append]
    simp
  · intro p
    rw [filesWritten_append]
    simp

/-- State of the manifest file handle opened by `open(fin_file, 'a')`
(src/R4/fetchdat.py line 23): `buffer` is the process's user-space write
buffer, `disk` is what has reached the operating system and survives a crash
of the process.  Models CPython's block-buffered regular file with the default
buffer size: a `write` reaches the OS only once the buffer fills, and the
script never calls `flush`. -/
structure FileState where
  buffer : String
  disk : String
deriving Repr, DecidableEq

/-- CPython's default `io` buffer size in bytes. -/
def BUFSIZE : Nat := 8192

/-- Source: `fin.write(s)` on the block-buffered manifest file. -/
def fwrite (fs : FileState) (s : String) : FileState :=
  if BUFSIZE ≤ (fs.buffer ++ s).length then
    { buffer := "", disk := fs.disk ++ (fs.buffer ++ s) }
  else
    { buffer := fs.buffer ++ s, disk := fs.disk }

/-- Closing the file when the `with` block exits flushes the buffer. -/
def fclose (fs : FileState) : FileState :=
  { buffer := "", disk := fs.disk ++ fs.buffer }

/-- File state after the manifest writes `lines`, starting from an empty file. -/
def fileAfter (lines : List String) : FileState :=
  lines.foldl fwrite { buffer := "", disk := "" }

theorem fwrite_disk_buffer (fs : FileState) (s : String) :
    (fwrite fs s).disk ++ (fwrite fs s).buffer = fs.disk ++ fs.buffer ++ s := by
  unfold fwrite
  by_cases h : BUFSIZE ≤ (fs.buffer ++ s).length
  · rw [if_pos h]
    simp [String.append_assoc]
  · rw [if_neg h]
    simp [String.append_assoc]

/-- Concatenation of a list of strings, in order. -/
def concatLines : List String → String
  | [] => ""
  | l :: rest => l ++ concatLines rest

theorem foldl_fwrite_disk_buffer (lines : List String) :
    ∀ fs : FileState,
      (lines.foldl fwrite fs).disk ++ (lines.foldl fwrite fs).buffer =
        fs.disk ++ fs.buffer ++ concatLines lines := by
  induction lines with
  | nil =>
    intro fs
    show (fs.disk ++ fs.buffer) = fs.disk ++ fs.buffer ++ ""
    apply String.ext
    simp [String.data_append]
  | cons l rest ih =>
    intro fs
    simp only [List.foldl_cons, concatLines, ih (fwrite fs l), fwrite_disk_buffer,
      String.append_assoc]

/-- After the `with` block closes the manifest file, its durable content is
exactly the concatenation of every line written, in order. -/
theorem fclose_fileAfter (lines : List String) :
    (fclose (fileAfter lines)).disk = concatLines lines := by
  show (fileAfter lines).disk ++ (fileAfter lines).buffer = concatLines lines
  rw [fileAfter, foldl_fwrite_disk_buffer]
  apply String.ext
  simp [String.data_append]

/-- C5 fails on the code: processing the single pair (H1:X, [0,1]) appends its
manifest line to the file object, but the script never flushes, so before the
run ends (and before any hypothetical next pair) the durable content of the
manifest file is still empty — a crash at that point loses the completed
pair's line. -/
theorem manifest_not_flushed_counterexample :
    (manifestLines (runDriver "/data" (fun _ _ _ => ⟨"1238166018", "0.0625"⟩)
        [⟨"H1:X", 16⟩] [⟨0, 1⟩])).length = 1
    ∧ (fileAfter (manifestLines (runDriver "/data" (fun _ _ _ => ⟨"1238166018", "0.0625"⟩)
        [⟨"H1:X", 16⟩] [⟨0, 1⟩]))).disk = "" := by
  constructor
  · rfl
  · rfl

/-- C5 amended: the driver writes each pair's manifest line to the buffered
file object before the next pair is processed — one line per pair, in
iteration order — but never flushes it; the lines are guaranteed durable only
once the `with` block closes the file at the end of the run, at which point
the manifest holds exactly the concatenation of all lines. -/
theorem manifest_durable_on_close (cwd : String) (oracle : String → Int → Int → Series)
    (channels : List ChannelRow) (ranges : List TimeRow) :
    manifestLines (runDriver cwd oracle channels ranges) =
      (channels.flatMap fun ch => ranges.map fun tr =>
        manifestLine (abspath cwd (output_file ch.channel tr))
          (oracle ch.channel tr.start tr.«end»).t0 (oracle ch.channel tr.start tr.«end»).dt)
    ∧ (fclose (fileAfter (manifestLines (runDriver cwd oracle channels ranges)))).disk =
      concatLines (manifestLines (runDriver cwd oracle channels ranges)) :=
  ⟨manifestLines_runDriver cwd oracle channels ranges,
   fclose_fileAfter _⟩

/-- C6 fails on the code: for the single pair (H1:X, [0, 1]) the fetch call is
the second event of the run, and the time-range subdirectory H1_X/0_1 has not
been created at that point — only the channel directory H1_X has; the
subdirectory is only created after the fetch, so the fetch does occur before
the pair's full output directory exists. -/
theorem fetch_before_time_dir_counterexample :
    (runDriver "/data" (fun _ _ _ => ⟨"0", "1"⟩) [⟨"H1:X", 16⟩] [⟨0, 1⟩])[1]? =
      some (Event.fetch "H1:X" 0 1 "nds.gwosc.org")
    ∧ Event.mkdirs "H1_X/0_1" ∉
      (runDriver "/data" (fun _ _ _ => ⟨"0", "1"⟩) [⟨"H1:X", 16⟩] [⟨0, 1⟩]).take 2
    ∧ Event.mkdirs "H1_X/0_1" ∈
      runDriver "/data" (fun _ _ _ => ⟨"0", "1"⟩) [⟨"H1:X", 16⟩] [⟨0, 1⟩] := by
  refine ⟨rfl, by decide, by decide⟩

/-- C6 amended: for every (channel, range) pair the channel directory is
created before the pair's fetch call, but the time-range subdirectory is
created only after the fetch returns — and before the output file is written
into it. -/
theorem fetch_between_dir_creations (cwd : String) (oracle : String → Int → Int → Series)
    (cs1 cs2 : List ChannelRow) (ch : ChannelRow) (rs1 rs2 : List TimeRow) (tr : TimeRow) :
    ∃ pa pb : String,
      runDriver cwd oracle (cs1 ++ ch :: cs2) (rs1 ++ tr :: rs2) =
        runDriver cwd oracle cs1 (rs1 ++ tr :: rs2)
        ++ Event.mkdirs (channel_dir ch.channel)
          :: (runRanges cwd oracle ch.channel rs1
            ++ Event.fetch ch.channel tr.start tr.«end» host
              :: Event.mkdirs (time_dir_path ch.channel tr)
              :: Event.write (output_file ch.channel tr)
              :: Event.print pa
              :: Event.manifest (manifestLine (abspath cwd (output_file ch.channel tr))
                  (oracle ch.channel tr.start tr.«end»).t0
                  (oracle ch.channel tr.start tr.«end»).dt)
              :: Event.print pb
              :: (runRanges cwd oracle ch.channel rs2
                ++ runDriver cwd oracle cs2 (rs1 ++ tr :: rs2))) := by
  refine ⟨"Aux data for channel \x27" ++ ch.channel ++ "\x27 from " ++
      toString tr.start ++ " to " ++ toString tr.«end» ++ " saved to " ++
      output_file ch.channel tr,
    "Added to fin.txt: " ++ abspath cwd (output_file ch.channel tr) ++ " " ++
      (oracle ch.channel tr.start tr.«end»).t0 ++ " " ++
      (oracle ch.channel tr.start tr.«end»).dt ++ " 0 0", ?_⟩
  simp [runDriver, runRanges, List.flatMap_append, List.flatMap_cons, pairEvents]

deriving instance DecidableEq for Except

/-- The inner loop of src/R4/fetchdat.py when the remote fetch may raise:
`TimeSeries.fetch` (line 39) has no surrounding try/except, so the first raise
aborts the loop and propagates; the trace then ends with the failing fetch
attempt. -/
def runRangesE (cwd : String) (oracleE : String → Int → Int → Except String Series)
    (channel_name : String) : List TimeRow → List Event × Option String
  | [] => ([], none)
  | tr :: rest =>
    match oracleE channel_name tr.start tr.«end» with
    | Except.error e => ([Event.fetch channel_name tr.start tr.«end» host], some e)
    | Except.ok data =>
      match runRangesE cwd oracleE channel_name rest with
      | (evs, r) => (pairEvents cwd channel_name data tr ++ evs, r)

/-- The driver loop of src/R4/fetchdat.py when the remote fetch may raise: the
propagating exception also aborts the outer channel loop. -/
def runDriverE (cwd : String) (oracleE : String → Int → Int → Except String Series)
    (ranges : List TimeRow) : List ChannelRow → List Event × Option String
  | [] => ([], none)
  | ch :: rest =>
    match runRangesE cwd oracleE ch.channel ranges with
    | (evs, some e) => (Event.mkdirs (channel_dir ch.channel) :: evs, some e)
    | (evs, none) =>
      match runDriverE cwd oracleE ranges rest with
      | (evs2, r2) => (Event.mkdirs (channel_dir ch.channel) :: (evs ++ evs2), r2)

theorem runRangesE_all_ok (cwd : String) (oracleE : String → Int → Int → Except String Series)
    (oracle : String → Int → Int → Series) (ch : String) :
    ∀ ranges : List TimeRow,
      (∀ r ∈ ranges, oracleE ch r.start r.«end» = Except.ok (oracle ch r.start r.«end»)) →
      runRangesE cwd oracleE ch ranges = (runRanges cwd oracle ch ranges, none) := by
  intro ranges
  induction ranges with
  | nil => intro _; rfl
  | cons r rest ih =>
    intro h
    have hr := h r (List.mem_cons_self r rest)
    have hrest := ih fun x hx => h x (List.mem_cons_of_mem r hx)
    simp [runRangesE, hr, hrest, runRanges, List.flatMap_cons]

theorem runRangesE_first_failure (cwd : String)
    (oracleE : String → Int → Int → Except String Series)
    (oracle : String → Int → Int → Series) (ch : String)
    (rs2 : List TimeRow) (tr : TimeRow) (e : String)
    (he : oracleE ch tr.start tr.«end» = Except.error e) :
    ∀ rs1 : List TimeRow,
      (∀ r ∈ rs1, oracleE ch r.start r.«end» = Except.ok (oracle ch r.start r.«end»)) →
      runRangesE cwd oracleE ch (rs1 ++ tr :: rs2) =
        (runRanges cwd oracle ch rs1 ++ [Event.fetch ch tr.start tr.«end» host], some e) := by
  intro rs1
  induction rs1 with
  | nil =>
    intro _
    simp [runRangesE, he, runRanges]
  | cons r rest ih =>
    intro h
    have hr := h r (List.mem_cons_self r rest)
    have hrest := ih fun x hx => h x (List.mem_cons_of_mem r hx)
    simp [runRangesE, hr, hrest, runRanges, List.flatMap_cons, List.append_assoc]

theorem runDriverE_first_failure (cwd : String)
    (oracleE : String → Int → Int → Except String Series)
    (oracle : String → Int → Int → Series) (ch : ChannelRow) (cs2 : List ChannelRow)
    (rs1 rs2 : List TimeRow) (tr : TimeRow) (e : String)
    (hrs1 : ∀ r ∈ rs1, oracleE ch.channel r.start r.«end» =
      Except.ok (oracle ch.channel r.start r.«end»))
    (he : oracleE ch.channel tr.start tr.«end» = Except.error e) :
    ∀ cs1 : List ChannelRow,
      (∀ c ∈ cs1, ∀ r ∈ rs1 ++ tr :: rs2, oracleE c.channel r.start r.«end» =
        Except.ok (oracle c.channel r.start r.«end»)) →
      runDriverE cwd oracleE (rs1 ++ tr :: rs2) (cs1 ++ ch :: cs2) =
        (runDriver cwd oracle cs1 (rs1 ++ tr :: rs2) ++
          Event.mkdirs (channel_dir ch.channel) ::
            (runRanges cwd oracle ch.channel rs1 ++
              [Event.fetch ch.channel tr.start tr.«end» host]), some e) := by
  intro cs1
  induction cs1 with
  | nil =>
    intro _
    have h1 := runRangesE_first_failure cwd oracleE oracle ch.channel rs2 tr e he rs1 hrs1
    simp [runDriverE, h1, runDriver]
  | cons c rest ih =>
    intro h
    have hc := runRangesE_all_ok cwd oracleE oracle c.channel (rs1 ++ tr :: rs2)
      (h c (List.mem_cons_self c rest))
    have hrest := ih fun x hx => h x (List.mem_cons_of_mem c hx)
    simp [runDriverE, hc, hrest, runDriver, List.flatMap_cons, List.append_assoc]

/-- C9: a failure raised by the remote fetch for some pair terminates the
whole batch at that point: the run's trace is exactly the successful earlier
pairs' events followed by the failing fetch attempt, the fetch's error
propagates, no output file and no manifest line exists for the failing pair or
any later pair, and the manifest lines appended for earlier pairs are
preserved — the enclosing `with` block closes the file, flushing exactly those
lines to disk. -/
theorem fetch_failure_aborts_batch (cwd : String)
    (oracleE : String → Int → Int → Except String Series)
    (oracle : String → Int → Int → Series)
    (cs1 cs2 : List ChannelRow) (ch : ChannelRow) (rs1 rs2 : List TimeRow)
    (tr : TimeRow) (e : String)
    (hcs1 : ∀ c ∈ cs1, ∀ r ∈ rs1 ++ tr :: rs2, oracleE c.channel r.start r.«end» =
      Except.ok (oracle c.channel r.start r.«end»))
    (hrs1 : ∀ r ∈ rs1, oracleE ch.channel r.start r.«end» =
      Except.ok (oracle ch.channel r.start r.«end»))
    (he : oracleE ch.channel tr.start tr.«end» = Except.error e) :
    runDriverE cwd oracleE (rs1 ++ tr :: rs2) (cs1 ++ ch :: cs2) =
      (runDriver cwd oracle cs1 (rs1 ++ tr :: rs2) ++
        Event.mkdirs (channel_dir ch.channel) ::
          (runRanges cwd oracle ch.channel rs1 ++
            [Event.fetch ch.channel tr.start tr.«end» host]), some e)
    ∧ manifestLines (runDriverE cwd oracleE (rs1 ++ tr :: rs2) (cs1 ++ ch :: cs2)).1 =
      manifestLines (runDriver cwd oracle cs1 (rs1 ++ tr :: rs2)) ++
        manifestLines (runRanges cwd oracle ch.channel rs1)
    ∧ filesWritten (runDriverE cwd oracleE (rs1 ++ tr :: rs2) (cs1 ++ ch :: cs2)).1 =
      filesWritten (runDriver cwd oracle cs1 (rs1 ++ tr :: rs2)) ++
        filesWritten (runRanges cwd oracle ch.channel rs1)
    ∧ (fclose (fileAfter (manifestLines
        (runDriverE cwd oracleE (rs1 ++ tr :: rs2) (cs1 ++ ch :: cs2)).1))).disk =
      concatLines (manifestLines
        (runDriverE cwd oracleE (rs1 ++ tr :: rs2) (cs1 ++ ch :: cs2)).1) := by
  have htr := runDriverE_first_failure cwd oracleE oracle ch cs2 rs1 rs2 tr e hrs1 he cs1 hcs1
  refine ⟨htr, ?_, ?_, fclose_fileAfter _⟩
  · rw [htr]
    show manifestLines (runDriver cwd oracle cs1 (rs1 ++ tr :: rs2) ++
      Event.mkdirs (channel_dir ch.channel) ::
        (runRanges cwd oracle ch.channel rs1 ++
          [Event.fetch ch.channel tr.start tr.«end» host])) = _
    rw [manifestLines_append]
    have h1 : manifestLines (Event.mkdirs (channel_dir ch.channel) ::
        (runRanges cwd oracle ch.channel rs1 ++
          [Event.fetch ch.channel tr.start tr.«end» host])) =
        manifestLines (runRanges cwd oracle ch.channel rs1 ++
          [Event.fetch ch.channel tr.start tr.«end» host]) := rfl
    rw [h1, manifestLines_append]
    have h2 : manifestLines [Event.fetch ch.channel tr.start tr.«end» host] = [] := rfl
    rw [h2, List.append_nil]
  · rw [htr]
    show filesWritten (runDriver cwd oracle cs1 (rs1 ++ tr :: rs2) ++
      Event.mkdirs (channel_dir ch.channel) ::
        (runRanges cwd oracle ch.channel rs1 ++
          [Event.fetch ch.channel tr.start tr.«end» host])) = _
    rw [filesWritten_append]
    have h1 : filesWritten (Event.mkdirs (channel_dir ch.channel) ::
        (runRanges cwd oracle ch.channel rs1 ++
          [Event.fetch ch.channel tr.start tr.«end» host])) =
        filesWritten (runRanges cwd oracle ch.channel rs1 ++
          [Event.fetch ch.channel tr.start tr.«end» host]) := rfl
    rw [h1, filesWritten_append]
    have h2 : filesWritten [Event.fetch ch.channel tr.start tr.«end» host] = [] := rfl
    rw [h2, List.append_nil]

/-- Concrete instance of `fetch_failure_aborts_batch`: two channels, two
ranges, the fetch for the second channel's second range fails; every
hypothesis is discharged by evaluation. -/
theorem fetch_failure_aborts_batch_witness :
    runDriverE "/d"
      (fun c s t => if c = "B:2" ∧ s = 2 ∧ t = 3 then Except.error "boom"
        else Except.ok ⟨"0", "1"⟩)
      [⟨0, 1⟩, ⟨2, 3⟩] [⟨"A:1", 1⟩, ⟨"B:2", 2⟩] =
      (runDriver "/d" (fun _ _ _ => ⟨"0", "1"⟩) [⟨"A:1", 1⟩] [⟨0, 1⟩, ⟨2, 3⟩] ++
        Event.mkdirs (channel_dir "B:2") ::
          (runRanges "/d" (fun _ _ _ => ⟨"0", "1"⟩) "B:2" [⟨0, 1⟩] ++
            [Event.fetch "B:2" 2 3 host]), some "boom") :=
  (fetch_failure_aborts_batch "/d"
    (fun c s t => if c = "B:2" ∧ s = 2 ∧ t = 3 then Except.error "boom"
      else Except.ok ⟨"0", "1"⟩)
    (fun _ _ _ => ⟨"0", "1"⟩)
    [⟨"A:1", 1⟩] [] ⟨"B:2", 2⟩ [⟨0, 1⟩] [] ⟨2, 3⟩ "boom"
    (by decide) (by decide) (by decide)).1

namespace Osdf

/-- Source: `ifo = "H"` (src/osdf_demo.py line 9). -/
def ifo : String := "H"

/-- Source: `channel_name = "H1_GWOSC_O3a_4KHZ_R1"` (src/osdf_demo.py line 10). -/
def channel_name : String := "H1_GWOSC_O3a_4KHZ_R1"

/-- Source: `host = "https://datafind.gw-openscience.org"` (src/osdf_demo.py line 11). -/
def host : String := "https://datafind.gw-openscience.org"

/-- Source: `timeout_duration = 2` (src/osdf_demo.py line 12). -/
def timeout_duration : Nat := 2

/-- Observable effects of src/osdf_demo.py, in program order: the `find_urls`
discovery call, `os.makedirs`, the `rp.get` download of one URL, the binary
file write, `time.sleep`, and `print`. -/
inductive OEvent where
  | print (msg : String)
  | findUrls (ifoArg channelArg : String) (startArg stopArg : Int) (urltype hostArg : String)
  | mkdirs (path : String)
  | get (url : String)
  | writeFile (path content : String)
  | sleep (seconds : Nat)
deriving Repr, DecidableEq

/-- Source: `base_dir = f"{channel_name}/{start}_{end}"` (src/osdf_demo.py line 28). -/
def base_dir (row : TimeRow) : String :=
  channel_name ++ "/" ++ toString row.start ++ "_" ++ toString row.«end»

/-- Source: `filename = f"{channel_name}_{start}_{end}.gwf"` (src/osdf_demo.py line 38):
the name depends only on the row, not on the URL being downloaded. -/
def filename (row : TimeRow) : String :=
  channel_name ++ "_" ++ toString row.start ++ "_" ++ toString row.«end» ++ ".gwf"

/-- Source: `filepath = os.path.join(base_dir, filename)` (src/osdf_demo.py line 39). -/
def filepath (row : TimeRow) : String := pathJoin (base_dir row) (filename row)

/-- One iteration of the URL loop (src/osdf_demo.py lines 32-53): print the
download message, then inside `try`: fetch the URL, save its content to
`filepath`, print the saved and waiting messages, and sleep; on any exception
print the failure message and fall through to the next URL. -/
def urlStep (download : String → Except String String) (row : TimeRow) (url : String) :
    List OEvent :=
  OEvent.print ("Downloading: " ++ url) ::
    match download url with
    | Except.ok content =>
      [ OEvent.get url,
        OEvent.writeFile (filepath row) content,
        OEvent.print ("Saved: " ++ filepath row),
        OEvent.print ("Waiting for " ++ toString timeout_duration ++
          " seconds before the next download..."),
        OEvent.sleep timeout_duration ]
    | Except.error e =>
      [ OEvent.get url,
        OEvent.print ("Failed to download " ++ url ++ ": " ++ e) ]

/-- One iteration of the row loop (src/osdf_demo.py lines 17-53): discover the
URLs for the row's range; if the list is empty, print the no-files message and
continue with the next row; otherwise create the directory and process every
URL in order. -/
def rowTrace (find_urls : Int → Int → List String)
    (download : String → Except String String) (row : TimeRow) : List OEvent :=
  OEvent.findUrls ifo channel_name row.start row.«end» "osdf" host ::
    (if find_urls row.start row.«end» = [] then
      [OEvent.print ("No files found for " ++ toString row.start ++ " to " ++
        toString row.«end»)]
    else
      OEvent.mkdirs (base_dir row) ::
        (find_urls row.start row.«end»).flatMap (urlStep download row))

/-- The whole script loop of src/osdf_demo.py: one `rowTrace` per CSV row. -/
def runOsdf (find_urls : Int → Int → List String)
    (download : String → Except String String) (rows : List TimeRow) : List OEvent :=
  rows.flatMap (rowTrace find_urls download)

/-- C7: for a row whose URL discovery returns the empty list, the script
prints the no-files message and moves on: it creates no directory, downloads
nothing and writes no file for that row, and the surrounding loop continues
with the remaining rows. -/
theorem empty_urls_skips_row (find_urls : Int → Int → List String)
    (download : String → Except String String)
    (rows1 rows2 : List TimeRow) (row : TimeRow)
    (h : find_urls row.start row.«end» = []) :
    rowTrace find_urls download row =
      [OEvent.findUrls ifo channel_name row.start row.«end» "osdf" host,
       OEvent.print ("No files found for " ++ toString row.start ++ " to " ++
         toString row.«end»)]
    ∧ (∀ p, OEvent.mkdirs p ∉ rowTrace find_urls download row)
    ∧ (∀ p c, OEvent.writeFile p c ∉ rowTrace find_urls download row)
    ∧ (∀ u, OEvent.get u ∉ rowTrace find_urls download row)
    ∧ runOsdf find_urls download (rows1 ++ row :: rows2) =
      runOsdf find_urls download rows1 ++ rowTrace find_urls download row ++
        runOsdf find_urls download rows2 := by
  have h1 : rowTrace find_urls download row =
      [OEvent.findUrls ifo channel_name row.start row.«end» "osdf" host,
       OEvent.print ("No files found for " ++ toString row.start ++ " to " ++
         toString row.«end»)] := by
    simp [rowTrace, h]
  refine ⟨h1, ?_, ?_, ?_, ?_⟩
  · intro p
    simp [h1]
  · intro p c
    simp [h1]
  · intro u
    simp [h1]
  · simp [runOsdf, List.flatMap_append, List.flatMap_cons, List.append_assoc]

/-- Concrete instance of `empty_urls_skips_row` with its hypothesis discharged
by evaluation. -/
theorem empty_urls_skips_row_witness :
    rowTrace (fun _ _ => []) (fun _ => Except.error "e") ⟨5, 6⟩ =
      [OEvent.findUrls ifo channel_name 5 6 "osdf" host,
       OEvent.print ("No files found for " ++ toString (5 : Int) ++ " to " ++
         toString (6 : Int))] :=
  (empty_urls_skips_row (fun _ _ => []) (fun _ => Except.error "e") [] [] ⟨5, 6⟩ rfl).1

/-- C8: an exception raised while downloading or saving one URL is caught and
printed, and processing continues with the remaining URLs of the row and with
the remaining rows: the failing URL contributes only its download attempt and
the failure print, the later URLs of the row are still processed, and the row
loop continues regardless. -/
theorem url_failure_continues (find_urls : Int → Int → List String)
    (download : String → Except String String)
    (rows1 rows2 : List TimeRow) (row : TimeRow)
    (us1 us2 : List String) (u e : String)
    (hurls : find_urls row.start row.«end» = us1 ++ u :: us2)
    (hfail : download u = Except.error e) :
    urlStep download row u =
      [OEvent.print ("Downloading: " ++ u), OEvent.get u,
       OEvent.print ("Failed to download " ++ u ++ ": " ++ e)]
    ∧ rowTrace find_urls download row =
      OEvent.findUrls ifo channel_name row.start row.«end» "osdf" host ::
        OEvent.mkdirs (base_dir row) ::
          (us1.flatMap (urlStep download row) ++
            (urlStep download row u ++ us2.flatMap (urlStep download row)))
    ∧ runOsdf find_urls download (rows1 ++ row :: rows2) =
      runOsdf find_urls download rows1 ++ rowTrace find_urls download row ++
        runOsdf find_urls download rows2 := by
  refine ⟨?_, ?_, ?_⟩
  · simp [urlStep, hfail]
  · have hne : us1 ++ u :: us2 ≠ [] := by simp
    simp [rowTrace, hurls, hne, List.flatMap_append, List.flatMap_cons, List.append_assoc]
  · simp [runOsdf, List.flatMap_append, List.flatMap_cons, List.append_assoc]

/-- Concrete instance of `url_failure_continues` with both hypotheses
discharged by evaluation. -/
theorem url_failure_continues_witness :
    urlStep (fun x => if x = "u2" then Except.error "boom" else Except.ok "C") ⟨0, 1⟩ "u2" =
      [OEvent.print ("Downloading: " ++ "u2"), OEvent.get "u2",
       OEvent.print ("Failed to download " ++ "u2" ++ ": " ++ "boom")] :=
  (url_failure_continues (fun _ _ => ["u1", "u2", "u3"])
    (fun x => if x = "u2" then Except.error "boom" else Except.ok "C")
    [] [] ⟨0, 1⟩ ["u1"] ["u3"] "u2" "boom" rfl (by decide)).1

end Osdf

namespace Osdf

/-- The content the URL loop would save for `u`: the downloaded bytes on
success, nothing when the download raises. -/
def okContent (download : String → Except String String) (u : String) : Option String :=
  match download u with
  | Except.ok c => some c
  | Except.error _ => none

/-- The (path, content) file writes of a trace, in order. -/
def owrites (evs : List OEvent) : List (String × String) :=
  evs.filterMap fun ev => match ev with
    | OEvent.writeFile p c => some (p, c)
    | _ => none

/-- Applies a list of file writes to a file system (a map from path to
content), last write winning per path. -/
def applyWrites (ws : List (String × String)) (f : String → Option String) :
    String → Option String :=
  ws.foldl (fun acc pc => fun q => if q = pc.1 then some pc.2 else acc q) f

theorem owrites_append (l1 l2 : List OEvent) :
    owrites (l1 ++ l2) = owrites l1 ++ owrites l2 :=
  List.filterMap_append l1 l2 _

theorem getLast?_cons_or {β : Type} :
    ∀ (rest : List β) (c : β), (c :: rest).getLast? = rest.getLast?.or (some c)
  | [], _ => rfl
  | d :: ds, c => by
    rw [List.getLast?_cons_cons, getLast?_cons_or ds d]
    cases ds.getLast? <;> rfl

theorem applyWrites_const_path (p : String) :
    ∀ ws : List (String × String), (∀ pc ∈ ws, pc.1 = p) →
      ∀ f : String → Option String,
        applyWrites ws f p = ((ws.map Prod.snd).getLast?).or (f p)
        ∧ ∀ q, q ≠ p → applyWrites ws f q = f q := by
  intro ws
  induction ws with
  | nil =>
    intro _ f
    exact ⟨rfl, fun q _ => rfl⟩
  | cons pc rest ih =>
    intro h f
    have hp : pc.1 = p := h pc (List.mem_cons_self pc rest)
    have hrest := ih (fun x hx => h x (List.mem_cons_of_mem pc hx))
      (fun q => if q = pc.1 then some pc.2 else f q)
    constructor
    · show applyWrites rest (fun q => if q = pc.1 then some pc.2 else f q) p = _
      rw [hrest.1, List.map_cons, getLast?_cons_or, hp, if_pos rfl]
      cases (rest.map Prod.snd).getLast? <;> rfl
    · intro q hq
      show applyWrites rest (fun q => if q = pc.1 then some pc.2 else f q) q = f q
      rw [hrest.2 q hq, hp, if_neg hq]

theorem owrites_urlSteps (download : String → Except String String) (row : TimeRow) :
    ∀ urls : List String,
      owrites (urls.flatMap (urlStep download row)) =
        (urls.filterMap (okContent download)).map fun c => (filepath row, c) := by
  intro urls
  induction urls with
  | nil => rfl
  | cons u us ih =>
    rw [List.flatMap_cons, owrites_append, ih, List.filterMap_cons]
    cases hd : download u with
    | ok c =>
      have h1 : owrites (urlStep download row u) = [(filepath row, c)] := by
        simp [urlStep, hd, owrites]
      rw [h1]
      simp [okContent, hd]
    | error e =>
      have h1 : owrites (urlStep download row u) = [] := by
        simp [urlStep, hd, owrites]
      rw [h1]
      simp [okContent, hd]

/-- C10: within one row every file write of the URL loop targets the same path
`filepath row` — the filename does not depend on the URL — with exactly one
write per successfully downloaded URL, in order; so after the row at most one
output file exists for it (no other path is ever written) and its content is
that of the last successfully downloaded URL. -/
theorem row_single_output (find_urls : Int → Int → List String)
    (download : String → Except String String) (row : TimeRow) :
    owrites (rowTrace find_urls download row) =
      (((find_urls row.start row.«end»).filterMap (okContent download)).map
        fun c => (filepath row, c))
    ∧ (∀ pc ∈ owrites (rowTrace find_urls download row), pc.1 = filepath row)
    ∧ applyWrites (owrites (rowTrace find_urls download row)) (fun _ => none)
        (filepath row) =
      ((find_urls row.start row.«end»).filterMap (okContent download)).getLast?
    ∧ ∀ q, q ≠ filepath row →
        applyWrites (owrites (rowTrace find_urls download row)) (fun _ => none) q = none := by
  have h1 : owrites (rowTrace find_urls download row) =
      (((find_urls row.start row.«end»).filterMap (okContent download)).map
        fun c => (filepath row, c)) := by
    by_cases he : find_urls row.start row.«end» = []
    · simp [rowTrace, he, owrites]
    · have h2 : rowTrace find_urls download row =
          OEvent.findUrls ifo channel_name row.start row.«end» "osdf" host ::
            OEvent.mkdirs (base_dir row) ::
              (find_urls row.start row.«end»).flatMap (urlStep download row) := by
        simp [rowTrace, he]
      rw [h2]
      show owrites ((find_urls row.start row.«end»).flatMap (urlStep download row)) = _
      exact owrites_urlSteps download row _
  have hmem : ∀ pc ∈ owrites (rowTrace find_urls download row), pc.1 = filepath row := by
    rw [h1]
    intro pc hpc
    rcases List.mem_map.mp hpc with ⟨c, _, rfl⟩
    rfl
  have happ := applyWrites_const_path (filepath row)
    (owrites (rowTrace find_urls download row)) hmem (fun _ => none)
  refine ⟨h1, hmem, ?_, happ.2⟩
  rw [happ.1, h1, List.map_map]
  have h3 : (Prod.snd ∘ fun c => (filepath row, c)) = @id String := rfl
  rw [h3, List.map_id]
  cases ((find_urls row.start row.«end»).filterMap (okContent download)).getLast? <;> rfl

/-- Concrete instance of `row_single_output`: two URLs for a row, both
downloads succeed, every inner hypothesis discharged by evaluation — the
second write wins and the file holds the last download's content. -/
theorem row_single_output_witness :
    (filepath ⟨0, 1⟩, "A").1 = filepath ⟨0, 1⟩
    ∧ applyWrites (owrites (rowTrace (fun _ _ => ["u1", "u2"])
        (fun u => if u = "u1" then Except.ok "A" else Except.ok "B") ⟨0, 1⟩))
        (fun _ => none) "elsewhere" = none :=
  ⟨(row_single_output (fun _ _ => ["u1", "u2"])
      (fun u => if u = "u1" then Except.ok "A" else Except.ok "B") ⟨0, 1⟩).2.1
      (filepath ⟨0, 1⟩, "A") (by decide),
   (row_single_output (fun _ _ => ["u1", "u2"])
      (fun u => if u = "u1" then Except.ok "A" else Except.ok "B") ⟨0, 1⟩).2.2.2
      "elsewhere" (by decide)⟩

end Osdf
